import Mathlib

/-!
Verification development for the link-layer log analysis core of the
dash_meas_aio repository: a shallow embedding of `analysis/asn1parse.py`
and `analysis/linkhelper.py` (the structural tree parser, block router,
entry segmenter, header parser and the UESTAT mobility state tracker),
together with theorems settling the specification claims.

Conventions of the embedding:
* Python strings are Lean `String`s; helper functions reproduce the exact
  Python semantics of `strip`, `split`, `startswith`, substring tests and
  `int()` over the ASCII character classes the log format uses.
* Python exceptions (KeyError, TypeError, AttributeError, ValueError,
  IndexError, UnboundLocalError) are modelled as `none` of an `Option`
  result: a `none` means the Python call raises instead of returning.
* Python dicts are insertion-ordered association lists; assignment to an
  existing key replaces the value in place, a new key is appended.
-/

namespace DashMeas

/-! ### Python string primitives -/

/-- Python whitespace characters (the ASCII set recognised by `str.strip`
and the regex class `\s`). -/
def pyWs (c : Char) : Bool :=
  c = ' ' || c = '\t' || c = '\n' || c = '\r' || c = '\x0b' || c = '\x0c'

/-- `str.lstrip()` on a character list. -/
def lstripL (l : List Char) : List Char := l.dropWhile pyWs

/-- `str.strip()` on a character list. -/
def stripL (l : List Char) : List Char :=
  ((lstripL l).reverse.dropWhile pyWs).reverse

/-- `str.strip()`. -/
def pyStrip (s : String) : String := String.mk (stripL s.data)

/-- `str.rstrip(",")` on a character list. -/
def rstripCommaL (l : List Char) : List Char :=
  (l.reverse.dropWhile (fun c => c = ',')).reverse

/-- Substring containment on character lists (Python `needle in hay`). -/
def containsSubL (hay need : List Char) : Bool :=
  match hay with
  | [] => need.isEmpty
  | _ :: t => need.isPrefixOf hay || containsSubL t need

/-- Python `needle in hay` for strings. -/
def pyIn (need hay : String) : Bool := containsSubL hay.data need.data

/-- Python `s.startswith(pre)` (over the character lists, so that it
evaluates by kernel reduction). -/
def pyStartsWith (s pre : String) : Bool := pre.data.isPrefixOf s.data

/-- Python `s.split(c)` for a single-character separator: every occurrence
splits, empty pieces are kept. -/
def splitCharL (c : Char) : List Char → List (List Char)
  | [] => [[]]
  | x :: t =>
    match splitCharL c t with
    | [] => [[]]
    | h :: r => if x = c then [] :: h :: r else (x :: h) :: r

/-- Python `s.split(c, 1)`: split at the first occurrence only. -/
def splitOnceCharL (c : Char) : List Char → List (List Char)
  | [] => [[]]
  | x :: t =>
    if x = c then [[], t]
    else
      match splitOnceCharL c t with
      | [] => [[x]]
      | h :: r => (x :: h) :: r

/-- Python `s.split(sep, 1)` for a multi-character separator: `none` when
the separator does not occur. -/
def splitOnceSubL (sep : List Char) : List Char → Option (List Char × List Char)
  | [] => if sep.isPrefixOf ([] : List Char) then some ([], []) else none
  | x :: t =>
    if sep.isPrefixOf (x :: t) then some ([], (x :: t).drop sep.length)
    else
      match splitOnceSubL sep t with
      | none => none
      | some (a, b) => some (x :: a, b)

/-- `line.replace("::=", " ")`: replace every (left-to-right,
non-overlapping) occurrence of the assignment token by one space. -/
def replaceColonEqL : List Char → List Char
  | ':' :: ':' :: '=' :: t => ' ' :: replaceColonEqL t
  | x :: t => x :: replaceColonEqL t
  | [] => []

/-- The opening brace character. -/
def braceL : Char := Char.ofNat 123

/-- The closing brace character. -/
def braceR : Char := Char.ofNat 125

/-- Value of a non-empty all-digit character list. -/
def digitsVal : List Char → Option Nat
  | [] => none
  | l => l.foldl (fun acc c => match acc with
      | none => none
      | some n => if c.isDigit then some (n * 10 + (c.toNat - 48)) else none)
      (some 0)

/-- Python `int(s)` for a string: optional surrounding whitespace, optional
sign, at least one ASCII digit (underscore grouping not modelled; the log
values never use it). `none` models ValueError. -/
def pyIntStr (s : String) : Option Int :=
  match stripL s.data with
  | '-' :: ds => (digitsVal ds).map (fun n => -(n : Int))
  | '+' :: ds => (digitsVal ds).map (fun n => (n : Int))
  | ds => (digitsVal ds).map (fun n => (n : Int))

/-! ### Ordered dictionaries (association lists with Python dict semantics) -/

/-- `d[k] = v`: replace in place when the key exists, append otherwise. -/
def pyInsert {κ α : Type} [DecidableEq κ] : List (κ × α) → κ → α → List (κ × α)
  | [], k, v => [(k, v)]
  | (k', v') :: t, k, v =>
    if k' = k then (k, v) :: t else (k', v') :: pyInsert t k v

/-- `d[k]` as an option (`none` models KeyError). -/
def pyLookup {κ α : Type} [DecidableEq κ] : List (κ × α) → κ → Option α
  | [], _ => none
  | (k', v') :: t, k => if k' = k then some v' else pyLookup t k

/-- `del d[k]` (no-op when missing; callers check membership first). -/
def pyDelete {κ α : Type} [DecidableEq κ] : List (κ × α) → κ → List (κ × α)
  | [], _ => []
  | (k', v') :: t, k => if k' = k then t else (k', v') :: pyDelete t k

/-! ### The generic tree value -/

/-- A Python value as produced by the parsers: a string leaf, an ordered
string-keyed mapping, or a list. -/
inductive JsonV where
  | str : String → JsonV
  | obj : List (String × JsonV) → JsonV
  | arr : List JsonV → JsonV

/-- Association list of string keys to tree values (a Python dict). -/
abbrev Assoc := List (String × JsonV)

/-- Python `len` (defined on strings, lists and dicts). -/
def pyLen : JsonV → Nat
  | .str s => s.data.length
  | .obj kvs => kvs.length
  | .arr xs => xs.length

/-- Is the value an empty dict (`isinstance(v, dict) and len(v) == 0`)? -/
def isEmptyObj : JsonV → Bool
  | .obj [] => true
  | _ => false

/-- A path step produced by `json_find`: a dict key or a list index. -/
inductive PathElem where
  | key : String → PathElem
  | idx : Nat → PathElem
deriving DecidableEq, Repr

/-- `d[k]` on a tree value: `none` models KeyError/TypeError. -/
def jLookup : JsonV → String → Option JsonV
  | .obj kvs, k => pyLookup kvs k
  | _, _ => none

/-- `d.get(k)` on a dict value (callers only reach this with dicts). -/
def jGet : JsonV → String → Option JsonV
  | .obj kvs, k => pyLookup kvs k
  | _, _ => none

/-- `list(d.keys())`: `none` models AttributeError on non-dicts. -/
def jKeys : JsonV → Option (List String)
  | .obj kvs => some (kvs.map Prod.fst)
  | _ => none

/-- Python iteration `for x in v`: keys of a dict, elements of a list,
single-character strings of a string. -/
def pyIter : JsonV → List JsonV
  | .obj kvs => kvs.map (fun kv => .str kv.1)
  | .arr xs => xs
  | .str s => s.data.map (fun c => .str (String.mk [c]))

/-- Python `int(v)` on a tree value (TypeError on dicts and lists). -/
def pyIntOfJson : JsonV → Option Int
  | .str s => pyIntStr s
  | _ => none

mutual

/-- `json_find(obj, target_key)` from `linkhelper.py`: recursive
key-substring search, returning the paths of all matching keys in
document order (a matching key is reported before its subtree). -/
def json_find (target : String) : JsonV → List PathElem → List (List PathElem)
  | .str _, _ => []
  | .obj kvs, path => jsonFindObj target kvs path
  | .arr xs, path => jsonFindArr target xs 0 path

/-- `json_find` over the pairs of a dict. -/
def jsonFindObj (target : String) : List (String × JsonV) → List PathElem → List (List PathElem)
  | [], _ => []
  | (k, v) :: t, path =>
    (if pyIn target k then [path ++ [.key k]] else []) ++
      json_find target v (path ++ [.key k]) ++ jsonFindObj target t path

/-- `json_find` over the elements of a list. -/
def jsonFindArr (target : String) : List JsonV → Nat → List PathElem → List (List PathElem)
  | [], _, _ => []
  | x :: t, i, path =>
    json_find target x (path ++ [.idx i]) ++ jsonFindArr target t (i + 1) path

end

/-- `json_get(obj, path)` from `linkhelper.py`: successive indexing along a
path (`none` models KeyError/TypeError/IndexError). -/
def json_get : JsonV → List PathElem → Option JsonV
  | v, [] => some v
  | .obj kvs, .key k :: rest =>
    match pyLookup kvs k with
    | some v => json_get v rest
    | none => none
  | .obj _, .idx _ :: _ => none
  | .arr xs, .idx i :: rest =>
    match xs[i]? with
    | some v => json_get v rest
    | none => none
  | .arr _, .key _ :: _ => none
  | .str s, .idx i :: rest =>
    match s.data[i]? with
    | some c => json_get (.str (String.mk [c])) rest
    | none => none
  | .str _, .key _ :: _ => none

/-! ### asn1parse.py — the structural tree parser -/

/-- `_get_indentation_level(line)`: leading whitespace count halved
(floored); −1 for a blank line. -/
def get_indentation_level (s : String) : Int :=
  let stripped := lstripL s.data
  if stripped.isEmpty then -1
  else (((s.data.length - stripped.length) / 2 : Nat) : Int)

/-- `_parse_pdu_line(line)`: remove braces, strip, drop trailing commas,
split on `:` into non-blank stripped segments, then split each segment on
the first space. -/
def parse_pdu_line (s : String) : List String :=
  let l := s.data.filter (fun c => !(c = braceL || c = braceR))
  let l := rstripCommaL (stripL l)
  let segs := ((splitCharL ':' l).map stripL).filter (fun seg => !seg.isEmpty)
  (segs.map (fun seg => splitOnceCharL ' ' seg)).flatten.map (fun cs => String.mk cs)

/-- The raw tree built by `parse_nested_pdu` before the reclassification
pass: a pure nested dict whose leaves are empty dicts. -/
inductive RawTree where
  | node : List (String × RawTree) → RawTree

/-- Is a raw tree the empty dict? -/
def RawTree.isEmptyNode : RawTree → Bool
  | .node [] => true
  | _ => false

mutual

/-- Embed a raw tree into the generic value universe. -/
def rawToJson : RawTree → JsonV
  | .node kvs => .obj (rawToJsonL kvs)

/-- Embedding of the child list of a raw tree. -/
def rawToJsonL : List (String × RawTree) → List (String × JsonV)
  | [] => []
  | (k, v) :: t => (k, rawToJson v) :: rawToJsonL t

end

mutual

/-- `_cleanup_empty_dict` restricted to the pure dict trees the parser
builds (on which the Python function always returns): if any child is an
empty dict the node becomes a list (empty children contribute their key as
a string element, non-empty ones a singleton dict), a singleton result
collapses to its element; otherwise the node stays a dict with cleaned
values. -/
def cleanupRaw : RawTree → JsonV
  | .node kvs =>
    if kvs.any (fun kv => kv.2.isEmptyNode) then
      match cleanupRawElems kvs with
      | [e] => e
      | es => .arr es
    else .obj (cleanupRawMap kvs)

/-- List-branch elements of `cleanupRaw`. -/
def cleanupRawElems : List (String × RawTree) → List JsonV
  | [] => []
  | (k, v) :: t =>
    (if v.isEmptyNode then JsonV.str k else JsonV.obj [(k, cleanupRaw v)]) ::
      cleanupRawElems t

/-- Mapping-branch pairs of `cleanupRaw`. -/
def cleanupRawMap : List (String × RawTree) → List (String × JsonV)
  | [] => []
  | (k, v) :: t => (k, cleanupRaw v) :: cleanupRawMap t

end

mutual

/-- `_cleanup_empty_dict(d)` from `asn1parse.py` on an arbitrary value:
`none` models the AttributeError raised by `d.items()` when `d` is a
string or list. In the list branch `len(v) == 0` is Python `len`, defined
on strings and lists as well. -/
def cleanup_empty_dict : JsonV → Option JsonV
  | .str _ => none
  | .arr _ => none
  | .obj kvs =>
    if kvs.any (fun kv => isEmptyObj kv.2) then
      match cleanupAnyElems kvs with
      | none => none
      | some [e] => some e
      | some es => some (.arr es)
    else
      match cleanupAnyMap kvs with
      | none => none
      | some m => some (.obj m)

/-- List-branch elements of `cleanup_empty_dict`. -/
def cleanupAnyElems : List (String × JsonV) → Option (List JsonV)
  | [] => some []
  | (k, v) :: t =>
    if pyLen v = 0 then
      match cleanupAnyElems t with
      | none => none
      | some r => some (.str k :: r)
    else
      match cleanup_empty_dict v with
      | none => none
      | some cv =>
        match cleanupAnyElems t with
        | none => none
        | some r => some (.obj [(k, cv)] :: r)

/-- Mapping-branch pairs of `cleanup_empty_dict`. -/
def cleanupAnyMap : List (String × JsonV) → Option (List (String × JsonV))
  | [] => some []
  | (k, v) :: t =>
    match cleanup_empty_dict v with
    | none => none
    | some cv =>
      match cleanupAnyMap t with
      | none => none
      | some m => some ((k, cv) :: m)

end

mutual

/-- Count the children of the node addressed by a key path (the Python
code reads `len(stack[-1][1])` through a direct reference; the embedding
re-navigates the path). -/
def childCountAt : RawTree → List String → Nat
  | .node kvs, [] => kvs.length
  | .node kvs, k :: rest => childCountAtL kvs k rest

/-- Key-path navigation step of `childCountAt`. -/
def childCountAtL : List (String × RawTree) → String → List String → Nat
  | [], _, _ => 0
  | (k', v) :: t, k, rest =>
    if k' = k then childCountAt v rest else childCountAtL t k rest

end

mutual

/-- `node[key] = {}` through a key path (Python mutates the dict the stack
references directly; the embedding re-navigates the path). A missing path
is unreachable by construction and leaves the tree unchanged. -/
def insertEmptyAt : RawTree → List String → String → RawTree
  | .node kvs, [], key => .node (pyInsert kvs key (.node []))
  | .node kvs, k :: rest, key => .node (insertEmptyAtL kvs k rest key)

/-- Key-path navigation step of `insertEmptyAt`. -/
def insertEmptyAtL : List (String × RawTree) → String → List String → String → List (String × RawTree)
  | [], _, _, _ => []
  | (k', v) :: t, k, rest, key =>
    if k' = k then (k', insertEmptyAt v rest key) :: t
    else (k', v) :: insertEmptyAtL t k rest key

end

/-- The parse stack: `(indentation level, key path of the open node)`
pairs, head = top of stack. -/
abbrev PStack := List (Int × List String)

/-- The implicit-nesting filler loop of `parse_nested_pdu`: while the gap
between the line level and the stack top exceeds 1, synthesize a
single-character key from the current child count and push it. The fuel is
the initial gap, which bounds the iteration count. -/
def fillerLoop (level : Int) : Nat → PStack → RawTree → PStack × RawTree
  | 0, stack, body => (stack, body)
  | fuel + 1, stack, body =>
    match stack with
    | [] => (stack, body)
    | (tl, tp) :: _ =>
      if level - tl > 1 then
        let key := String.mk [Char.ofNat (0x30 + childCountAt body tp)]
        let body' := insertEmptyAt body tp key
        fillerLoop level fuel ((tl + 1, tp ++ [key]) :: (tl, tp) :: stack.tail) body'
      else (stack, body)

/-- The per-line token push of `parse_nested_pdu`: each token becomes a
new empty child of the current top, one level deeper than the last. -/
def pushTokens : List String → Int → PStack → RawTree → PStack × RawTree
  | [], _, stack, body => (stack, body)
  | v :: vs, level, stack, body =>
    match stack with
    | [] => (stack, body)
    | (_, tp) :: _ =>
      let body' := insertEmptyAt body tp v
      pushTokens vs (level + 1) ((level, tp ++ [v]) :: stack) body'

/-- The root-line loop of `parse_nested_pdu`: consume lines (replacing
`::=` by a space) until one tokenizes non-trivially; returns the consumed
count, the last token list and the last indentation level. -/
def rootLoop : List String → Nat × List String × Int
  | [] => (0, [], 0)
  | l :: rest =>
    let line := String.mk (replaceColonEqL l.data)
    let values := parse_pdu_line line
    if values.isEmpty then
      let r := rootLoop rest
      (r.1 + 1, r.2)
    else (1, values, get_indentation_level line)

/-- The tree-building main loop of `parse_nested_pdu`: pop closed scopes,
stop (without consuming the line) when the stack empties, fill implicit
nesting, push the line's tokens. Returns the consumed-line count and the
built tree. -/
def mainLoop : List String → PStack → RawTree → Nat × RawTree
  | [], _, body => (0, body)
  | l :: rest, stack, body =>
    let values := parse_pdu_line l
    if values.isEmpty then
      let r := mainLoop rest stack body
      (r.1 + 1, r.2)
    else
      let level := get_indentation_level l
      let stack1 := stack.dropWhile (fun e => e.1 ≥ level)
      match stack1 with
      | [] => (0, body)
      | top :: _ =>
        let fb := fillerLoop level (level - top.1).toNat stack1 body
        let sb := pushTokens values level fb.1 fb.2
        let r := mainLoop rest sb.1 sb.2
        (r.1 + 1, r.2)

/-- `parse_nested_pdu(lines, begin, root)` from `asn1parse.py`. Returns
the signed consumed-line count and the updated root dict. `none` models
the UnboundLocalError raised by the invalid-root report when the root loop
never ran (i.e. `begin >= len(lines)`), in which case `line` is unbound. -/
def parse_nested_pdu (lines : List String) (bg : Nat) (root : Assoc) : Option (Int × Assoc) :=
  let rem := lines.drop bg
  let (c, values, level) := rootLoop rem
  if values.length = 2 then
    let rootKey := values.getD 1 ""
    let (c2, body) := mainLoop (rem.drop c) [(level, ([] : List String))] (.node [])
    some (((c + c2 : Nat) : Int), pyInsert root rootKey (cleanupRaw body))
  else if c = 0 then none
  else some (((c : Nat) : Int) - 1, root)

/-! ### asn1parse.py — block router -/

/-- Result of the leading scan of `parse_interpreted_pdu`: position of the
marker line, position of the first non-marker non-blank line, or the count
of lines when all were blank. -/
inductive ScanRes where
  | found : Nat → ScanRes
  | broke : Nat → ScanRes
  | exhausted : Nat → ScanRes

/-- Shift a scan result by one consumed line. -/
def ScanRes.bump : ScanRes → ScanRes
  | .found j => .found (j + 1)
  | .broke j => .broke (j + 1)
  | .exhausted j => .exhausted (j + 1)

/-- Leading scan of `parse_interpreted_pdu`: skip blank lines until the
first non-blank line, which either is the `Interpreted PDU:` marker or
breaks the scan. -/
def ipduScan : List String → ScanRes
  | [] => .exhausted 0
  | l :: rest =>
    let sl := pyStrip l
    if sl = "" then (ipduScan rest).bump
    else if pyStartsWith sl "Interpreted PDU:" then .found 0
    else .broke 0

/-- `parse_interpreted_pdu(lines, begin, root)` from `asn1parse.py`. -/
def parse_interpreted_pdu (lines : List String) (bg : Nat) (root : Assoc) : Option (Int × Assoc) :=
  match ipduScan (lines.drop bg) with
  | .found j =>
    match parse_nested_pdu lines (bg + j + 1) [] with
    | none => none
    | some (parsed, inner) =>
      some (parsed + ((j : Nat) : Int) + 1, pyInsert root "Interpreted PDU" (.obj inner))
  | .broke j => some (((j : Nat) : Int), root)
  | .exhausted n => some (((n : Nat) : Int), root)

/-- The marker triple of `parse_further_decoding_pdu`, in match order
(Python keeps it as a stack popped from the end). -/
def fdTriple : List String := ["====", "Further", "===="]

/-- Marker-matching loop of `parse_further_decoding_pdu`: skip blank
lines, consume lines whose stripped text starts with the next expected
marker, stop on a mismatch. Returns (consumed, markers still expected,
matched stripped lines). -/
def fdMatchLoop : List String → List String → List String → Nat × List String × List String
  | _, [], m => (0, [], m)
  | [], t :: tm, m => (0, t :: tm, m)
  | l :: rest, t :: tm, m =>
    let sl := pyStrip l
    if sl = "" then
      let r := fdMatchLoop rest (t :: tm) m
      (r.1 + 1, r.2)
    else if pyStartsWith sl t then
      let r := fdMatchLoop rest tm (m ++ [sl])
      (r.1 + 1, r.2)
    else (0, t :: tm, m)

/-- Forward scan of `parse_further_decoding_pdu` for a trigger line:
offset of the first line containing `::=` (kind `true`) or, failing that
test on the same line, `Interpreted PDU:` (kind `false`). -/
def fdScan : List String → Option (Nat × Bool)
  | [] => none
  | l :: rest =>
    if pyIn "::=" l then some (0, true)
    else if pyIn "Interpreted PDU:" l then some (0, false)
    else (fdScan rest).map (fun jb => (jb.1 + 1, jb.2))

/-- Extract the inner dict stored under a key (the Python code passes
`root[key]` — a dict just created — by reference). -/
def innerAssoc (root : Assoc) (key : String) : Assoc :=
  match pyLookup root key with
  | some (.obj a) => a
  | _ => []

/-- `parse_further_decoding_pdu(lines, begin, root)` from `asn1parse.py`.
When the triple matches, `root[key] = {}` happens before the trigger scan
and is kept even on the no-trigger return; the no-trigger return value is
`i - len(matched) - begin` with `i` already advanced to the end of the
line list by the scan. -/
def parse_further_decoding_pdu (lines : List String) (bg : Nat) (root : Assoc) : Option (Int × Assoc) :=
  let r := fdMatchLoop (lines.drop bg) fdTriple []
  let c := r.1
  let tm := r.2.1
  let m := r.2.2
  if tm.isEmpty then
    let key := m.getD 1 ""
    let root1 := pyInsert root key (.obj [])
    let i := bg + c
    match fdScan (lines.drop i) with
    | some (j, true) =>
      match parse_nested_pdu lines (i + j) (innerAssoc root1 key) with
      | none => none
      | some (parsed, inner) =>
        some (parsed + ((i + j : Nat) : Int) - (bg : Int), pyInsert root1 key (.obj inner))
    | some (j, false) =>
      match parse_interpreted_pdu lines (i + j) (innerAssoc root1 key) with
      | none => none
      | some (parsed, inner) =>
        some (parsed + ((i + j : Nat) : Int) - (bg : Int), pyInsert root1 key (.obj inner))
    | none =>
      some (((lines.length : Nat) : Int) - (m.length : Int) - (bg : Int), root1)
  else some (((c : Nat) : Int) - (m.length : Int), root)

/-- One segment of a metadata line: `part.split("=")` (on every `=`);
only segments yielding exactly two pieces are inserted (others are
reported as invalid and skipped). -/
def vplPart (root : Assoc) (part : List Char) : Assoc :=
  let values := splitCharL '=' part
  if values.length ≠ 2 then root
  else pyInsert root (String.mk (stripL (values.getD 0 []))) (.str (String.mk (stripL (values.getD 1 []))))

/-- Line loop of `parse_value_pair_lines`. -/
def vplLoop : List String → Assoc → Nat × Assoc
  | [], root => (0, root)
  | l :: rest, root =>
    let sl := pyStrip l
    if sl = "" then
      let r := vplLoop rest root
      (r.1 + 1, r.2)
    else if !(pyIn "=" sl) || pyIn "====" sl then (0, root)
    else
      let parts := splitCharL ',' sl.data
      let root' := parts.foldl vplPart root
      let r := vplLoop rest root'
      (r.1 + 1, r.2)

/-- `parse_value_pair_lines(lines, begin, root)` from `asn1parse.py`:
consume lines containing `=` but not `====`, splitting each on commas and
each segment on every `=`. -/
def parse_value_pair_lines (lines : List String) (bg : Nat) (root : Assoc) : Nat × Assoc :=
  vplLoop (lines.drop bg) root

/-- One iteration of `parse_asn1_packet`'s router loop: the three parse
attempts in order, each advancing the shared cursor. -/
def routerStep (lines : List String) (pos : Nat) (root : Assoc) : Option (Int × Assoc) :=
  let (a, root1) := parse_value_pair_lines lines pos root
  match parse_interpreted_pdu lines (pos + a) root1 with
  | none => none
  | some (b, root2) =>
    match parse_further_decoding_pdu lines (pos + a + b.toNat) root2 with
    | none => none
    | some (cc, root3) => some (((a : Nat) : Int) + b + cc, root3)

/-- The router loop of `parse_asn1_packet`, with fuel bounding the
iteration count (each productive iteration advances the cursor by at least
one line, so `lines.length + 1` iterations always suffice). -/
def routerLoop (lines : List String) : Nat → Nat → Assoc → Option Assoc
  | 0, pos, root =>
    if pos < lines.length then some (pyInsert root "extra_lines" (.arr ((lines.drop pos).map .str)))
    else some root
  | fuel + 1, pos, root =>
    if pos < lines.length then
      match routerStep lines pos root with
      | none => none
      | some (parsed, root') =>
        if parsed = 0 then
          some (pyInsert root' "extra_lines" (.arr ((lines.drop pos).map .str)))
        else routerLoop lines fuel (pos + parsed.toNat) root'
    else some root

/-- `parse_asn1_packet(lines)` from `asn1parse.py`. -/
def parse_asn1_packet (lines : List String) : Option Assoc :=
  routerLoop lines (lines.length + 1) 0 []

/-! ### linkhelper.py — data model and the UESTAT mobility state tracker -/

/-- The `Cell` dataclass: every field defaults to Python `None`. -/
structure Cell where
  cellIndex : Option Int := none
  cellGroup : Option String := none
  physCellId : Option Int := none
  dlCarrierFreq : Option Int := none
deriving DecidableEq, Repr

/-- The `HOEvent` dataclass (`begin`/`end` renamed: Lean keywords). The
cell-id lists carry `Option Int` because the mobility-control path appends
`self.pcell.physCellId`, which is Python `None` on a fresh state. -/
structure HOEvent where
  evBegin : Int
  hoType : String
  evEnd : Option Int := none
  added_cells : List (Option Int) := []
  removed_cells : List (Option Int) := []
deriving DecidableEq, Repr

/-- The mutable state of a `UESTAT` instance (the revision constants
`scg_rev = "r10"`, `mcg_freq_rev = "v9e0"` and the `event_keys` table are
inlined as the literal key strings they produce). -/
structure UESTAT where
  pcell : Cell
  sCells : List (Int × Cell)
  ho_events : List HOEvent
deriving DecidableEq, Repr

/-- `UESTAT.__init__`: primary cell knows only its group, no secondary
cells, no events. -/
def uestatInit : UESTAT :=
  { pcell := { cellGroup := some "mcg" }, sCells := [], ho_events := [] }

/-- The `Entry` dataclass of `linkhelper.py` (`unknown` is the bracketed
tag). `data` is the dict built by `parse_packet`. -/
structure Entry where
  date : String
  time : String
  ts_ms : Int
  unknown : String
  log_code : String
  log_type : Option String := none
  log_name : Option String := none
  data : Option Assoc := none

/-- The completion message name tested by `add_rrc`. -/
def completeName : String := "UL_DCCH / RRCConnectionReconfigurationComplete"

/-- The reconfiguration message name of the supported-logs table. -/
def reconfName : String := "DL_DCCH / RRCConnectionReconfiguration"

/-- The completion step of `add_rrc`: if there is a last handover event
and it is still open, set its end to the given timestamp. -/
def closeLastIfOpen (evs : List HOEvent) (ts : Int) : List HOEvent :=
  match evs.getLast? with
  | none => evs
  | some last =>
    if last.evEnd = none then evs.dropLast ++ [{ last with evEnd := some ts }]
    else evs

/-- `UESTAT.mcg_ho(data)`: build the new primary cell from the
mobility-control-info block (`none` models KeyError/TypeError/ValueError
on the lookups and `int()` conversions). -/
def mcg_ho (v : JsonV) : Option Cell :=
  match jLookup v "targetPhysCellId" with
  | none => none
  | some tgt =>
    match pyIntOfJson tgt with
    | none => none
    | some tp =>
      match jLookup v "carrierFreq-v9e0" with
      | none => none
      | some cf =>
        match jLookup cf "dl-CarrierFreq-v9e0" with
        | none => none
        | some df =>
          match pyIntOfJson df with
          | none => none
          | some dfn =>
            some { cellGroup := some "mcg", physCellId := some tp, dlCarrierFreq := some dfn }

/-- Element loop of `UESTAT.rel_scg`: each iterated element is converted
with `int()` and appended to the removed list; tracked indices are deleted
from the secondary-cell dict, untracked ones only produce a warning. -/
def relScgLoop : List JsonV → List (Int × Cell) → Option (List Int × List (Int × Cell))
  | [], sc => some ([], sc)
  | x :: t, sc =>
    match pyIntOfJson x with
    | none => none
    | some n =>
      let sc' := if (pyLookup sc n).isSome then pyDelete sc n else sc
      match relScgLoop t sc' with
      | none => none
      | some (ids, sc'') => some (n :: ids, sc'')

/-- `UESTAT.rel_scg(data)`: iterate the release-list value. -/
def rel_scg (v : JsonV) (sc : List (Int × Cell)) : Option (List Int × List (Int × Cell)) :=
  relScgLoop (pyIter v) sc

/-- Item loop of `UESTAT.add_scg`: for each `(_, mod)` item read the cell
index; with a `cellIdentification` sub-block record the index as added and
(re)build the full cell; without one only warn. -/
def addScgLoop : List (String × JsonV) → List (Int × Cell) → Option (List Int × List (Int × Cell))
  | [], sc => some ([], sc)
  | (_, m) :: t, sc =>
    match jLookup m "sCellIndex-r10" with
    | none => none
    | some si =>
      match pyIntOfJson si with
      | none => none
      | some cid =>
        match jGet m "cellIdentification-r10" with
        | none =>
          match addScgLoop t sc with
          | none => none
          | some (ids, sc') => some (ids, sc')
        | some cb =>
          match jLookup cb "physCellId-r10" with
          | none => none
          | some pciV =>
            match pyIntOfJson pciV with
            | none => none
            | some pci =>
              match jLookup cb "dl-CarrierFreq-r10" with
              | none => none
              | some dfV =>
                match pyIntOfJson dfV with
                | none => none
                | some df =>
                  let cell : Cell :=
                    { cellIndex := some cid, cellGroup := some "scg",
                      physCellId := some pci, dlCarrierFreq := some df }
                  match addScgLoop t (pyInsert sc cid cell) with
                  | none => none
                  | some (ids, sc') => some (cid :: ids, sc')

/-- `UESTAT.add_scg(data)`: `data.items()` requires a dict (`none` models
the AttributeError on lists and strings). -/
def add_scg (v : JsonV) (sc : List (Int × Cell)) : Option (List Int × List (Int × Cell)) :=
  match v with
  | .obj kvs => addScgLoop kvs sc
  | _ => none

/-- Fold of `rel_scg` over all release-list paths found in the body. -/
def relPathsLoop (pdu : JsonV) : List (List PathElem) → List (Int × Cell) → Option (List Int × List (Int × Cell))
  | [], sc => some ([], sc)
  | p :: t, sc =>
    match json_get pdu p with
    | none => none
    | some v =>
      match rel_scg v sc with
      | none => none
      | some (ids, sc') =>
        match relPathsLoop pdu t sc' with
        | none => none
        | some (ids', sc'') => some (ids ++ ids', sc'')

/-- Fold of `add_scg` over all add/modify-list paths found in the body. -/
def addPathsLoop (pdu : JsonV) : List (List PathElem) → List (Int × Cell) → Option (List Int × List (Int × Cell))
  | [], sc => some ([], sc)
  | p :: t, sc =>
    match json_get pdu p with
    | none => none
    | some v =>
      match add_scg v sc with
      | none => none
      | some (ids, sc') =>
        match addPathsLoop pdu t sc' with
        | none => none
        | some (ids', sc'') => some (ids ++ ids', sc'')

/-- The release/add/event tail of `UESTAT.add_rrc`, entered with the
removed/added lists and handover type accumulated by the
mobility-control-info stage. -/
def addRrcRest (e : Entry) (s : UESTAT) (pdu : JsonV)
    (removed added : List (Option Int)) (hoType : Option String) : Option UESTAT :=
  match relPathsLoop pdu (json_find "sCellToReleaseList" pdu []) s.sCells with
  | none => none
  | some (relIds, sc1) =>
    match addPathsLoop pdu (json_find "sCellToAddModList" pdu []) sc1 with
    | none => none
    | some (addIds, sc2) =>
      let removed := removed ++ relIds.map some
      let added := added ++ addIds.map some
      let s := { s with sCells := sc2 }
      if added = [] ∧ removed = [] then some s
      else
        let evs := closeLastIfOpen s.ho_events e.ts_ms
        some { s with ho_events :=
          evs ++ [{ evBegin := e.ts_ms, hoType := hoType.getD "intraSCG", evEnd := none,
                    added_cells := added, removed_cells := removed }] }

/-- `UESTAT.add_rrc(entry)` after `data_pdu` has been extracted: the
completion step, then the mobility-control-info stage (which reassigns the
primary cell before checking for the mandatory handover-type block and
returns early without it), then the release/add/event tail. -/
def addRrcMain (e : Entry) (s : UESTAT) (pdu : JsonV) : Option UESTAT :=
  let evs0 := if e.log_name = some completeName then closeLastIfOpen s.ho_events e.ts_ms
              else s.ho_events
  let s0 := { s with ho_events := evs0 }
  match json_find "mobilityControlInfo" pdu [] with
  | [] => addRrcRest e s0 pdu [] [] none
  | p :: _ =>
    let removed0 := [s0.pcell.physCellId]
    match json_get pdu p with
    | none => none
    | some m =>
      match mcg_ho m with
      | none => none
      | some pc =>
        let s1 := { s0 with pcell := pc }
        match json_find "handoverType" pdu [] with
        | [] => some s1
        | q :: _ =>
          match json_get pdu q with
          | none => none
          | some hv =>
            match jKeys hv with
            | none => none
            | some ks =>
              match ks.head? with
              | none => none
              | some ht =>
                addRrcRest e s1 pdu removed0 [s1.pcell.physCellId] (some ht)

/-- `UESTAT.add_rrc(entry)` from `linkhelper.py` (`none` models any
exception escaping the method). -/
def add_rrc (e : Entry) (s : UESTAT) : Option UESTAT :=
  match e.data with
  | none => none
  | some d =>
    match pyLookup d "Interpreted PDU" with
    | none => none
    | some pdu => addRrcMain e s pdu

/-- Feed a list of entries to the tracker in order. -/
def runEntries : List Entry → UESTAT → Option UESTAT
  | [], s => some s
  | e :: t, s =>
    match add_rrc e s with
    | none => none
    | some s' => runEntries t s'

/-- The open-event invariant: every handover event other than the last has
already been closed (hence at most one open event, and it is the most
recently appended one). -/
def invHO (evs : List HOEvent) : Prop :=
  ∀ ev ∈ evs.dropLast, ev.evEnd ≠ none

instance (evs : List HOEvent) : Decidable (invHO evs) := by
  unfold invHO; infer_instance

/-! ### Header parser (the fixed first-line pattern, shared by both files) -/

/-- Take exactly `n` characters satisfying `p`. -/
def takeCount (p : Char → Bool) : Nat → List Char → Option (List Char × List Char)
  | 0, l => some ([], l)
  | _ + 1, [] => none
  | n + 1, c :: t =>
    if p c then (takeCount p n t).map (fun ar => (c :: ar.1, ar.2)) else none

/-- Regex `\s+`: require at least one whitespace character and consume the
maximal run (no backtracking is needed where the following token cannot
match whitespace). -/
def eatWs1 (l : List Char) : Option (List Char) :=
  let r := l.dropWhile pyWs
  if r.length < l.length then some r else none

/-- Expect one fixed character. -/
def expectChar (c : Char) : List Char → Option (List Char)
  | [] => none
  | x :: t => if x = c then some t else none

/-- Uppercase hex digit class `[0-9A-F]`. -/
def isHexUp (c : Char) : Bool := c.isDigit || ('A' ≤ c && c ≤ 'F')

/-- Regex `\d{1,2}` followed by `\s+`: greedy two digits, backtracking to
one; in both cases the next character must be whitespace, so taking the
maximal run of at most two digits is equivalent. -/
def takeDay : List Char → Option (List Char × List Char)
  | [] => none
  | c1 :: rest =>
    if c1.isDigit then
      match rest with
      | c2 :: rest2 => if c2.isDigit then some ([c1, c2], rest2) else some ([c1], rest)
      | [] => some ([c1], [])
    else none

/-- Regex `hh:mm:ss`. -/
def matchClock (l : List Char) : Option (List Char × List Char) := do
  let (h, r) ← takeCount Char.isDigit 2 l
  let r ← expectChar ':' r
  let (m, r) ← takeCount Char.isDigit 2 r
  let r ← expectChar ':' r
  let (s, r) ← takeCount Char.isDigit 2 r
  pure (h ++ ':' :: m ++ ':' :: s, r)

/-- `is_timestamp_line(line)` from `linkhelper.py` (the same regex is
nested inside `asn1parse._split_entries`): prefix match of
`^\d{4}\s+[A-Z][a-z]{2}\s+\d{1,2}\s+\d{2}:\d{2}:\d{2}`. -/
def is_timestamp_line (s : String) : Bool :=
  (do
    let (_, r) ← takeCount Char.isDigit 4 s.data
    let r ← eatWs1 r
    let (_, r) ← takeCount (fun c => 'A' ≤ c && c ≤ 'Z') 1 r
    let (_, r) ← takeCount (fun c => 'a' ≤ c && c ≤ 'z') 2 r
    let r ← eatWs1 r
    let (_, r) ← takeDay r
    let r ← eatWs1 r
    let (_, r) ← matchClock r
    pure r).isSome

/-- Core of `lastGroup` after the trailing-newline adjustment. -/
def lastGroupCore (t' : List Char) : Option (List Char) :=
  match t' with
  | [] => none
  | c :: _ =>
    if pyWs c then
      let run := t'.takeWhile pyWs
      let rem := t'.drop run.length
      if rem.isEmpty then
        if run.length ≥ 2 && !(run.getLast? = some '\n') then
          some [run.getLastD ' ']
        else none
      else if rem.contains '\n' then none
      else some rem
    else none

/-- The final `\s+(.+)$` of the header pattern: at least one whitespace
character, then a non-empty newline-free remainder running to the end of
the line ( `$` may sit just before one final newline; when everything
after the code is whitespace the greedy `\s+` backtracks one character). -/
def lastGroup (t : List Char) : Option (List Char) :=
  lastGroupCore (if t.getLast? = some '\n' then t.dropLast else t)

/-- Date part of the header pattern:
`^(\d{4})\s+([A-Z][a-z]{2})\s+(\d{1,2})\s+` returning year, month, day
and the remainder. -/
def hmDate (l : List Char) : Option (String × String × String × List Char) := do
  let (year, r) ← takeCount Char.isDigit 4 l
  let r ← eatWs1 r
  let (mu, r) ← takeCount (fun c => 'A' ≤ c && c ≤ 'Z') 1 r
  let (ml, r) ← takeCount (fun c => 'a' ≤ c && c ≤ 'z') 2 r
  let r ← eatWs1 r
  let (day, r) ← takeDay r
  let r ← eatWs1 r
  pure (String.mk year, String.mk (mu ++ ml), String.mk day, r)

/-- Time part of the header pattern: `(\d{2}:\d{2}:\d{2}\.\d{3})\s+`. -/
def hmTime (l : List Char) : Option (String × List Char) := do
  let (clock, r) ← matchClock l
  let r ← expectChar '.' r
  let (ms, r) ← takeCount Char.isDigit 3 r
  let r ← eatWs1 r
  pure (String.mk (clock ++ '.' :: ms), r)

/-- Tag part of the header pattern: `\[([0-9A-F]{2})\]\s+`. -/
def hmTag (l : List Char) : Option (String × List Char) := do
  let r ← expectChar '[' l
  let (tag, r) ← takeCount isHexUp 2 r
  let r ← expectChar ']' r
  let r ← eatWs1 r
  pure (String.mk tag, r)

/-- Code part of the header pattern: `(0x[0-9A-F]{4})`. -/
def hmCode (l : List Char) : Option (String × List Char) := do
  let r ← expectChar '0' l
  let r ← expectChar 'x' r
  let (code, r) ← takeCount isHexUp 4 r
  pure (String.mk ('0' :: 'x' :: code), r)

/-- The header pattern of `parse_entry` (identical in both files):
`^(\d{4})\s+([A-Z][a-z]{2})\s+(\d{1,2})\s+(\d{2}:\d{2}:\d{2}\.\d{3})\s+
\[([0-9A-F]{2})\]\s+(0x[0-9A-F]{4})\s+(.+)$`, returning the seven groups
(year, month, day, time, tag, code, remainder). -/
def headerMatch (s : String) : Option (String × String × String × String × String × String × String) :=
  match hmDate s.data with
  | none => none
  | some (year, mon, day, r) =>
    match hmTime r with
    | none => none
    | some (time, r) =>
      match hmTag r with
      | none => none
      | some (tag, r) =>
        match hmCode r with
        | none => none
        | some (code, r) =>
          match lastGroup r with
          | none => none
          | some rest => some (year, mon, day, time, tag, code, String.mk rest)

/-! ### Epoch computation (`get_epoch_ms` / `_get_epoch_ms`) -/

/-- Split a character list into maximal non-whitespace fields. -/
def wsFieldsAux : List Char → List Char → List (List Char)
  | [], cur => if cur.isEmpty then [] else [cur.reverse]
  | c :: t, cur =>
    if pyWs c then
      if cur.isEmpty then wsFieldsAux t [] else cur.reverse :: wsFieldsAux t []
    else wsFieldsAux t (c :: cur)

/-- Whitespace-separated fields of a string. -/
def wsFields (l : List Char) : List (List Char) := wsFieldsAux l []

/-- The `%b` month abbreviations accepted for the regex-shaped inputs the
callers construct. -/
def monthNum (m : String) : Option Nat :=
  if m = "Jan" then some 1 else if m = "Feb" then some 2
  else if m = "Mar" then some 3 else if m = "Apr" then some 4
  else if m = "May" then some 5 else if m = "Jun" then some 6
  else if m = "Jul" then some 7 else if m = "Aug" then some 8
  else if m = "Sep" then some 9 else if m = "Oct" then some 10
  else if m = "Nov" then some 11 else if m = "Dec" then some 12
  else none

/-- Gregorian leap year. -/
def isLeap (y : Int) : Bool := y % 4 = 0 && (y % 100 ≠ 0 || y % 400 = 0)

/-- Days in a month (the datetime validation `strptime` performs). -/
def daysInMonth (y : Int) (m : Nat) : Nat :=
  if m = 2 then (if isLeap y then 29 else 28)
  else if m = 4 || m = 6 || m = 9 || m = 11 then 30
  else 31

/-- Days from 1970-01-01 to the given civil date (proleptic Gregorian). -/
def daysFromCivil (y : Int) (m d : Nat) : Int :=
  let y' := if m ≤ 2 then y - 1 else y
  let era := Int.fdiv y' 400
  let yoe := y' - era * 400
  let mp : Int := if m > 2 then (m : Int) - 3 else (m : Int) + 9
  let doy := (153 * mp + 2) / 5 + (d : Int) - 1
  let doe := yoe * 365 + yoe / 4 - yoe / 100 + doy
  era * 146097 + doe - 719468

/-- `%f`: one to six fraction digits, right-padded to microseconds. -/
def fracMicro (l : List Char) : Option Nat :=
  if l.length = 0 || l.length > 6 then none
  else (digitsVal l).map (fun n => n * 10 ^ (6 - l.length))

/-- `get_epoch_ms(date_time_str)` from `linkhelper.py` (identical to
`asn1parse._get_epoch_ms`): `strptime` with format `%Y %b %d %H:%M:%S.%f`
interpreted as UTC, converted to epoch milliseconds. `none` models the
ValueError on an invalid month, date or time; the embedding computes the
exact integer (Python goes through a float and may truncate one
millisecond low in rare cases, which no claim depends on). -/
def get_epoch_ms (s : String) : Option Int :=
  match wsFields s.data with
  | [ys, ms, ds, clock] =>
    match digitsVal ys, monthNum (String.mk ms), digitsVal ds with
    | some y, some mo, some d =>
      match splitCharL ':' clock with
      | [hh, mm, ssf] =>
        match digitsVal hh, digitsVal mm with
        | some h, some mi =>
          match splitCharL '.' ssf with
          | [ss, fff] =>
            match digitsVal ss, fracMicro fff with
            | some sec, some micro =>
              if y = 0 || d = 0 || d > daysInMonth (y : Int) mo
                  || h > 23 || mi > 59 || sec > 59 then none
              else some ((daysFromCivil (y : Int) mo d * 86400
                          + (h : Int) * 3600 + (mi : Int) * 60 + (sec : Int)) * 1000
                         + ((micro : Int) / 1000))
            | _, _ => none
          | _ => none
        | _, _ => none
      | _ => none
    | _, _, _ => none
  | _ => none

/-! ### Entry segmenter (`get_entries` / `_split_entries`, identical) -/

/-- The segmenter's lookahead: the next non-blank, non-`%` line. -/
def nextNonEmpty : List String → Option String
  | [] => none
  | l :: t =>
    if pyStrip l ≠ "" && !(pyStartsWith l "%") then some l else nextNonEmpty t

/-- The segmentation loop: skip `%` lines; a blank line ends the current
group only when the next non-blank line is a timestamp header (the blank
itself is dropped), otherwise the blank stays inside the group. -/
def splitEntriesLoop : List String → List String → List (List String)
  | [], cur => if cur.isEmpty then [] else [cur]
  | l :: rest, cur =>
    if pyStartsWith l "%" then splitEntriesLoop rest cur
    else if pyStrip l = "" then
      match nextNonEmpty rest with
      | some nl =>
        if is_timestamp_line nl then
          if cur.isEmpty then splitEntriesLoop rest cur
          else cur :: splitEntriesLoop rest []
        else splitEntriesLoop rest (cur ++ [l])
      | none => splitEntriesLoop rest (cur ++ [l])
    else splitEntriesLoop rest (cur ++ [l])

/-- `get_entries` / `_split_entries` over the file's (line-ending
stripped) lines. -/
def split_entries (lines : List String) : List (List String) :=
  splitEntriesLoop lines []

/-! ### asn1parse.py — entry construction and file processing -/

/-- The `Entry` dataclass of `asn1parse.py` (note: unlike the linkhelper
version, here `log_name` is the part before the `--` separator). -/
structure AEntry where
  date : String
  time : String
  ts_ms : Int
  unknown : String
  log_code : String
  log_name : String
  log_subname : Option String := none
  data : Option Assoc := none

/-- The log codes that key `asn1parse.supported_logs`. -/
def supportedCodes : List String := ["0xB0C0", "0xB821"]

namespace Asn1parse

/-- `asn1parse.parse_entry(text_lines)`: `some none` is a Python `None`
return (header did not match), outer `none` models an exception (empty
group, `strptime` ValueError, or a crash in the body parse). -/
def parse_entry (g : List String) : Option (Option AEntry) :=
  match g with
  | [] => none
  | first :: _ =>
    match headerMatch first with
    | none => some none
    | some (y, mon, d, time, unk, code, rest) =>
      let date := y ++ " " ++ mon ++ " " ++ d
      let (logName, logSub) :=
        match splitOnceSubL "  --  ".data rest.data with
        | some ab => (String.mk (stripL ab.1), some (String.mk (stripL ab.2)))
        | none => (String.mk (stripL rest.data), (none : Option String))
      match get_epoch_ms (date ++ " " ++ time) with
      | none => none
      | some ts =>
        let base : AEntry :=
          { date, time, ts_ms := ts, unknown := unk, log_code := code,
            log_name := logName, log_subname := logSub }
        if g.length > 1 ∧ code ∈ supportedCodes then
          match parse_asn1_packet (g.drop 1) with
          | none => none
          | some dt => some (some { base with data := some dt })
        else some (some base)

/-- Group loop of `process_file`: a falsy (`None`) entry is skipped. -/
def processFileLoop : List (List String) → Option (List AEntry)
  | [] => some []
  | g :: t =>
    match parse_entry g with
    | none => none
    | some none => processFileLoop t
    | some (some e) =>
      match processFileLoop t with
      | none => none
      | some r => some (e :: r)

/-- `asn1parse.process_file`, over the file's lines. -/
def process_file (lines : List String) : Option (List AEntry) :=
  processFileLoop (split_entries lines)

end Asn1parse

/-! ### linkhelper.py — entry construction and `process_logs` -/

namespace Linkhelper

/-- The parenthesis-aware comma split of `linkhelper.parse_packet`. -/
def cspLoop : List Char → Int → List Char → List (List Char)
  | [], _, cur => if cur.isEmpty then [] else [stripL cur.reverse]
  | c :: t, depth, cur =>
    if c = '(' then cspLoop t (depth + 1) (c :: cur)
    else if c = ')' then cspLoop t (depth - 1) (c :: cur)
    else if c = ',' ∧ depth = 0 then stripL cur.reverse :: cspLoop t depth []
    else cspLoop t depth (c :: cur)

/-- One comma-separated part of a metadata line: inserted when it contains
`=`, split at the first `=` only. -/
def ppPart (root : Assoc) (part : List Char) : Assoc :=
  match splitOnceCharL '=' part with
  | [k, v] => pyInsert root (String.mk (stripL k)) (.str (String.mk (stripL v)))
  | _ => root

/-- One line of `parse_packet`'s key-value scan. -/
def ppLine (root : Assoc) (l : String) : Assoc :=
  let sl := pyStrip l
  if sl = "" then root else (cspLoop sl.data 0 []).foldl ppPart root

/-- Index of the first `Interpreted PDU:` marker line. -/
def findIpduIdx : List String → Option Nat
  | [] => none
  | l :: t =>
    if pyStrip l = "Interpreted PDU:" then some 0
    else (findIpduIdx t).map (· + 1)

/-- `linkhelper.parse_packet(lines)`: key-value pairs up to the
`Interpreted PDU:` marker; when the marker is present the code then calls
`asn1parse.parse_asn1`, **a function that does not exist in
`asn1parse.py`**, so the call raises AttributeError (modelled as `none`). -/
def parse_packet (lines : List String) : Option Assoc :=
  match findIpduIdx lines with
  | some i =>
    let _ := (lines.take i).foldl ppLine ([] : Assoc)
    none
  | none => some (lines.foldl ppLine ([] : Assoc))

/-- `linkhelper.parse_entry(text_lines)`: like the asn1parse version but
`log_type` receives the part before `--` and `log_name` the description,
and only `0xB0C0` bodies are parsed (via `parse_packet`). -/
def parse_entry (g : List String) : Option (Option Entry) :=
  match g with
  | [] => none
  | first :: _ =>
    match headerMatch first with
    | none => some none
    | some (y, mon, d, time, unk, code, rest) =>
      let date := y ++ " " ++ mon ++ " " ++ d
      let (logType, logName) :=
        match splitOnceSubL "  --  ".data rest.data with
        | some ab => (some (String.mk (stripL ab.1)), String.mk (stripL ab.2))
        | none => ((none : Option String), String.mk (stripL rest.data))
      match get_epoch_ms (date ++ " " ++ time) with
      | none => none
      | some ts =>
        let base : Entry :=
          { date, time, ts_ms := ts, unknown := unk, log_code := code,
            log_type := logType, log_name := some logName }
        if g.length > 1 ∧ code = "0xB0C0" then
          match parse_packet (g.drop 1) with
          | none => none
          | some dt => some (some { base with data := some dt })
        else some (some base)

/-- Group loop of `process_logs` with the default filter range
`(0, float("inf"))`: **no `None` check** — `entry.ts_ms` on a failed parse
raises AttributeError (modelled as `none`). -/
def processLogsLoop : List (List String) → UESTAT → Option UESTAT
  | [], s => some s
  | g :: t, s =>
    match parse_entry g with
    | none => none
    | some none => none
    | some (some e) =>
      if 0 ≤ e.ts_ms then
        if e.log_code = "0xB0C0" ∧
            (e.log_name = some reconfName ∨ e.log_name = some completeName) then
          match add_rrc e s with
          | none => none
          | some s' => processLogsLoop t s'
        else processLogsLoop t s
      else processLogsLoop t s

/-- `linkhelper.process_logs(file)` with the default (absent) filter
range, over the file's lines. -/
def process_logs (lines : List String) : Option UESTAT :=
  processLogsLoop (split_entries lines) uestatInit

end Linkhelper

/-! ### Claim C1 — handover bookkeeping for a secondary-cell addition -/

/-- Body of a reconfiguration that adds secondary-cell index 4 with
physical-cell-id 171 (carrier frequency 5230). -/
def c1Pdu : JsonV :=
  .obj [("sCellToAddModList-r10",
    .obj [("0", .obj [("sCellIndex-r10", .str "4"),
      ("cellIdentification-r10",
        .obj [("physCellId-r10", .str "171"), ("dl-CarrierFreq-r10", .str "5230")])])])]

/-- The reconfiguration entry of the C1 scenario (timestamp 1000 ms). -/
def c1Reconf : Entry :=
  { date := "2025 Dec 17", time := "20:34:04.165", ts_ms := 1000, unknown := "EC",
    log_code := "0xB0C0", log_type := some "LTE RRC OTA Packet",
    log_name := some reconfName, data := some [("Interpreted PDU", c1Pdu)] }

/-- The completion entry of the C1 scenario, 50 ms later. -/
def c1Complete : Entry :=
  { date := "2025 Dec 17", time := "20:34:04.215", ts_ms := 1050, unknown := "EC",
    log_code := "0xB0C0", log_type := some "LTE RRC OTA Packet",
    log_name := some completeName, data := some [("Interpreted PDU", .obj [])] }

/-- Claim C1 (counterexample): feeding the tracker the reconfiguration
entry adding secondary-cell index 4 with physical-cell-id 171 followed by
a completion 50 ms later yields one HandoverEvent whose `added_cells` is
`[4]` — the secondary-cell index — and not `[171]` as the claim states:
`add_scg` appends `cid` (the index), not `cell.physCellId`. -/
theorem c1_added_cells_counterexample :
    (runEntries [c1Reconf, c1Complete] uestatInit).map
        (fun s => s.ho_events.map HOEvent.added_cells) = some [[some 4]] ∧
    ([[some 4]] : List (List (Option Int))) ≠ [[some 171]] :=
  ⟨rfl, by decide⟩

/-- Claim C1 (amended): the scenario yields exactly one HandoverEvent with
`added_cell_ids = [4]` (the secondary-cell index, not the physical-cell-id)
and `end_ts - begin_ts = 50`. -/
theorem c1_added_cells_amended :
    (runEntries [c1Reconf, c1Complete] uestatInit).map UESTAT.ho_events =
      some [{ evBegin := 1000, hoType := "intraSCG", evEnd := some (1000 + 50),
              added_cells := [some 4], removed_cells := [] }] := rfl

/-! ### Claim C2 — mobility-control-info without a handover type -/

/-- A mobility-control-info block with target physical-cell-id 300 and
carrier frequency 100. -/
def c2Mci : JsonV :=
  .obj [("targetPhysCellId", .str "300"),
        ("carrierFreq-v9e0", .obj [("dl-CarrierFreq-v9e0", .str "100")])]

/-- A reconfiguration entry whose body has mobility-control-info but no
handover-type substructure. -/
def c2Entry : Entry :=
  { date := "2025 Dec 17", time := "20:34:04.165", ts_ms := 2000, unknown := "EC",
    log_code := "0xB0C0", log_type := some "LTE RRC OTA Packet",
    log_name := some reconfName,
    data := some [("Interpreted PDU", .obj [("mobilityControlInfo", c2Mci)])] }

/-- The state after feeding `c2Entry` to a fresh tracker: only the primary
cell differs from the initial state. -/
def c2After : UESTAT :=
  { pcell := { cellGroup := some "mcg", physCellId := some 300, dlCarrierFreq := some 100 },
    sCells := [], ho_events := [] }

/-- Claim C2 (counterexample): on a reconfiguration entry carrying
mobility-control-info but no handover-type substructure, `add_rrc` reports
the anomaly and opens no HandoverEvent, but the mobility state is **not**
unchanged: `mcg_ho` has already replaced the primary cell (physical-cell-id
`none` → `some 300`) before the handover-type check runs. -/
theorem c2_missing_handover_type_counterexample :
    add_rrc c2Entry uestatInit = some c2After ∧
    c2After.pcell.physCellId = some 300 ∧
    uestatInit.pcell.physCellId = none ∧
    c2After.ho_events = [] :=
  ⟨rfl, rfl, rfl, rfl⟩

/-- Claim C2 (amended): for every reconfiguration entry whose body
contains a mobility-control-info substructure (with a well-formed target)
but no handover-type substructure, `add_rrc` returns without opening a
HandoverEvent and without touching the secondary cells or events — but the
primary cell has already been reassigned to the mobility-control-info
target before the handover-type check: the returned state is exactly the
input state with `pcell` replaced. -/
theorem c2_missing_handover_type_amended (s : UESTAT) (e : Entry) (d : Assoc)
    (pdu m : JsonV) (p : List PathElem) (ps : List (List PathElem)) (pc : Cell)
    (hd : e.data = some d)
    (hpdu : pyLookup d "Interpreted PDU" = some pdu)
    (hname : e.log_name = some reconfName)
    (hmcg : json_find "mobilityControlInfo" pdu [] = p :: ps)
    (hget : json_get pdu p = some m)
    (hho : mcg_ho m = some pc)
    (hht : json_find "handoverType" pdu [] = []) :
    add_rrc e s = some { s with pcell := pc } := by
  have hne : e.log_name ≠ some completeName := by
    rw [hname]; decide
  unfold add_rrc
  rw [hd]
  dsimp only
  rw [hpdu]
  dsimp only
  unfold addRrcMain
  dsimp only
  rw [if_neg hne, hmcg]
  dsimp only
  rw [hget]
  dsimp only
  rw [hho]
  dsimp only
  rw [hht]

/-- Claim C2 (witness): the amended theorem applied at the concrete
missing-handover-type entry on a fresh state. -/
theorem c2_missing_handover_type_witness :
    add_rrc c2Entry uestatInit = some c2After :=
  c2_missing_handover_type_amended uestatInit c2Entry
    [("Interpreted PDU", .obj [("mobilityControlInfo", c2Mci)])]
    (.obj [("mobilityControlInfo", c2Mci)]) c2Mci [PathElem.key "mobilityControlInfo"] []
    { cellGroup := some "mcg", physCellId := some 300, dlCarrierFreq := some 100 }
    rfl rfl rfl rfl rfl rfl rfl

/-! ### Claim C3 — the open-event invariant -/

/-- After the conditional force-close, every event in the list is
closed (given that all events before the last already were). -/
theorem closeLastIfOpen_all_closed {evs : List HOEvent} (ts : Int) (h : invHO evs) :
    ∀ ev ∈ closeLastIfOpen evs ts, ev.evEnd ≠ none := by
  induction evs using List.reverseRecOn with
  | nil => intro ev hev; simp [closeLastIfOpen] at hev
  | append_singleton l a _ =>
    intro ev hev
    unfold closeLastIfOpen at hev
    rw [List.getLast?_concat] at hev
    simp only [List.dropLast_concat] at hev
    by_cases ha : a.evEnd = none
    · rw [if_pos ha] at hev
      rcases List.mem_append.1 hev with hl | hr
      · exact h ev (by simpa using hl)
      · simp at hr; subst hr; simp
    · rw [if_neg ha] at hev
      rcases List.mem_append.1 hev with hl | hr
      · exact h ev (by simpa using hl)
      · simp at hr; subst hr; exact ha

/-- A list of closed events keeps the invariant after appending one new
(open) event. -/
theorem invHO_append {evs : List HOEvent} (x : HOEvent)
    (h : ∀ ev ∈ evs, ev.evEnd ≠ none) : invHO (evs ++ [x]) := by
  intro ev hev
  rw [List.dropLast_concat] at hev
  exact h ev hev

/-- All-closed lists satisfy the invariant. -/
theorem invHO_of_all_closed {evs : List HOEvent}
    (h : ∀ ev ∈ evs, ev.evEnd ≠ none) : invHO evs :=
  fun ev hev => h ev (List.dropLast_subset _ hev)

/-- The force-close step preserves the invariant. -/
theorem invHO_closeLastIfOpen {evs : List HOEvent} (ts : Int) (h : invHO evs) :
    invHO (closeLastIfOpen evs ts) :=
  invHO_of_all_closed (closeLastIfOpen_all_closed ts h)

/-- The release/add/event tail of `add_rrc` preserves the invariant. -/
theorem addRrcRest_inv {e : Entry} {s : UESTAT} {pdu : JsonV}
    {removed added : List (Option Int)} {ht : Option String} {s' : UESTAT}
    (hinv : invHO s.ho_events)
    (h : addRrcRest e s pdu removed added ht = some s') : invHO s'.ho_events := by
  unfold addRrcRest at h
  split at h
  · exact absurd h (by simp)
  · split at h
    · exact absurd h (by simp)
    · dsimp only at h
      split at h
      · cases h; exact hinv
      · cases h
        exact invHO_append _ (closeLastIfOpen_all_closed _ hinv)

/-- Claim C3: at most one HandoverEvent has `end == None` at any time and
it is the most recently appended one (`invHO`: every event before the last
is closed); every `add_rrc` call that returns preserves this invariant —
the completion step and the event-opening step both force-close a
still-open previous event before appending, rather than failing. -/
theorem c3_open_event_invariant (e : Entry) (s s' : UESTAT)
    (hinv : invHO s.ho_events) (h : add_rrc e s = some s') : invHO s'.ho_events := by
  have hinv0 : invHO (if e.log_name = some completeName
      then closeLastIfOpen s.ho_events e.ts_ms else s.ho_events) := by
    split
    · exact invHO_closeLastIfOpen _ hinv
    · exact hinv
  unfold add_rrc at h
  split at h
  · exact absurd h (by simp)
  · split at h
    · exact absurd h (by simp)
    · unfold addRrcMain at h
      dsimp only at h
      split at h
      · exact addRrcRest_inv hinv0 h
      · split at h
        · exact absurd h (by simp)
        · split at h
          · exact absurd h (by simp)
          · split at h
            · cases h
              exact hinv0
            · split at h
              · exact absurd h (by simp)
              · split at h
                · exact absurd h (by simp)
                · split at h
                  · exact absurd h (by simp)
                  · exact addRrcRest_inv hinv0 h

/-- A benign entry for the C3 witness (empty interpreted PDU). -/
def c3Entry : Entry :=
  { date := "2025 Dec 17", time := "20:34:04.165", ts_ms := 3000, unknown := "EC",
    log_code := "0xB0C0", log_name := some "x",
    data := some [("Interpreted PDU", .obj [])] }

/-- Claim C3 (witness): the invariant theorem applied at a concrete state
and entry. -/
theorem c3_open_event_invariant_witness :
    invHO uestatInit.ho_events ∧ invHO uestatInit.ho_events :=
  ⟨by decide, c3_open_event_invariant c3Entry uestatInit uestatInit (by decide) rfl⟩

/-! ### Claim C4 — malformed header lines -/

/-- Claim C4 (code bug): for a line-group whose first line does not match
the header pattern, both `parse_entry` functions return `None` and
`asn1parse.process_file` skips the group — but `linkhelper.process_logs`
dereferences `entry.ts_ms` without a `None` check and raises
AttributeError, aborting the whole run on malformed input data. -/
theorem c4_malformed_header_code_bug :
    Linkhelper.process_logs ["hello"] = none ∧
    Asn1parse.parse_entry ["hello"] = some none ∧
    Linkhelper.parse_entry ["hello"] = some none ∧
    Asn1parse.process_file ["hello"] = some [] :=
  ⟨rfl, rfl, rfl, rfl⟩

/-! ### Claim C5 — further-decoding rollback -/

/-- Claim C5 (counterexample): on a body whose marker triple matches but
contains no `::=` or `Interpreted PDU:` trigger afterwards,
`parse_further_decoding_pdu` does not return 0: with one line after the
markers it returns 1 (and has also left `root["Further"] = {}` behind). -/
theorem c5_rollback_counterexample :
    parse_further_decoding_pdu ["====", "Further", "====", "x"] 0 [] =
      some (1, [("Further", .obj [])]) ∧
    (1 : Int) ≠ 0 :=
  ⟨rfl, by decide⟩

/-- Marker matching always balances: matched plus still-expected markers
equals the initial count. -/
theorem fdMatchLoop_len (l : List String) : ∀ tm m : List String,
    ((fdMatchLoop l tm m).2.2).length + ((fdMatchLoop l tm m).2.1).length
      = m.length + tm.length := by
  induction l with
  | nil =>
    intro tm m
    cases tm <;> simp [fdMatchLoop]
  | cons x rest ih =>
    intro tm m
    cases tm with
    | nil => simp [fdMatchLoop]
    | cons t tm' =>
      simp only [fdMatchLoop]
      split
      · have := ih (t :: tm') m
        simpa using this
      · split
        · have := ih tm' (m ++ [pyStrip x])
          simp at this ⊢
          omega
        · simp

/-- A scan over trigger-free lines finds nothing. -/
theorem fdScan_none (L : List String)
    (h : ∀ l ∈ L, pyIn "::=" l = false ∧ pyIn "Interpreted PDU:" l = false) :
    fdScan L = none := by
  induction L with
  | nil => rfl
  | cons x rest ih =>
    have hx := h x (by simp)
    simp only [fdScan, hx.1, hx.2, Bool.false_eq_true, if_false]
    rw [ih (fun l hl => h l (by simp [hl]))]
    rfl

/-- Claim C5 (amended): when the marker triple matches but no `::=` or
`Interpreted PDU:` trigger follows, `parse_further_decoding_pdu` returns
`len(lines) - begin - 3`: the three marker lines are credited back, but
the failed forward scan has advanced the cursor to the end of the body, so
the rollback is total only when the marker triple ends the body. -/
theorem c5_rollback_amended (lines : List String) (bg : Nat) (root : Assoc)
    (hmatch : (fdMatchLoop (lines.drop bg) fdTriple []).2.1 = [])
    (hscan : ∀ l ∈ lines.drop (bg + (fdMatchLoop (lines.drop bg) fdTriple []).1),
        pyIn "::=" l = false ∧ pyIn "Interpreted PDU:" l = false) :
    (parse_further_decoding_pdu lines bg root).map Prod.fst =
      some ((lines.length : Int) - (bg : Int) - 3) := by
  have hm3 : ((fdMatchLoop (lines.drop bg) fdTriple []).2.2).length = 3 := by
    have hlen := fdMatchLoop_len (lines.drop bg) fdTriple []
    rw [hmatch] at hlen
    simpa [fdTriple] using hlen
  unfold parse_further_decoding_pdu
  dsimp only
  rw [hmatch, fdScan_none _ hscan]
  simp [hm3]
  ring

/-- Claim C5 (witness): the amended theorem at a matched triple followed
by two trigger-free lines — 2 lines remain consumed, not 0. -/
theorem c5_rollback_witness :
    (parse_further_decoding_pdu ["====", "Further", "====", "a", "b"] 0 []).map Prod.fst =
      some 2 := by
  simpa using c5_rollback_amended ["====", "Further", "====", "a", "b"] 0 [] rfl (by decide)

/-! ### Claim C6 — list reclassification -/

/-- The value-notation snippet `\x7b \x7b 1 \x7d, \x7b 2 \x7d, \x7b 3 \x7d \x7d`
nested under a parent key, as it appears in the logs (one element per
line). -/
def c6Lines : List String :=
  ["value Msg ::= ", "  parent ", "  \x7b", "    \x7b 1 \x7d,",
   "    \x7b 2 \x7d,", "    \x7b 3 \x7d", "  \x7d"]

/-- Claim C6: parsing an anonymous list of scalars nested under a parent
key produces — after the list/mapping reclassification pass — the
3-element list `["1", "2", "3"]` as the parent key's value, not a 3-key
mapping. -/
theorem c6_list_reclassification :
    parse_nested_pdu c6Lines 0 [] =
      some (7, [("Msg", .obj [("parent", .arr [.str "1", .str "2", .str "3"])])]) := rfl

/-! ### Claim C7 — idempotence of the reclassification pass -/

/-- Claim C7 (counterexample): the structural tree parser turns the body
`value X ::= / a` into the leaf string `"a"` (reclassification applied
once inside the parser); applying `_cleanup_empty_dict` to that output
again raises AttributeError (`none`) instead of returning it unchanged. -/
theorem c7_idempotence_counterexample :
    parse_nested_pdu ["value X ::=", "  a"] 0 [] = some (2, [("X", .str "a")]) ∧
    cleanup_empty_dict (.str "a") = none :=
  ⟨rfl, rfl⟩

/-- The list branch produces one element per child. -/
theorem cleanupRawElems_length : ∀ kvs : List (String × RawTree),
    (cleanupRawElems kvs).length = kvs.length
  | [] => rfl
  | (k, v) :: t => by
    simp [cleanupRawElems, cleanupRawElems_length t]

/-- The mapping branch produces one pair per child. -/
theorem cleanupRawMap_length : ∀ kvs : List (String × RawTree),
    (cleanupRawMap kvs).length = kvs.length
  | [] => rfl
  | (k, v) :: t => by
    simp [cleanupRawMap, cleanupRawMap_length t]

/-- `isEmptyObj` is false on anything but the empty mapping. -/
theorem isEmptyObj_false {v : JsonV} (h : v ≠ .obj []) : isEmptyObj v = false := by
  cases v with
  | str s => rfl
  | arr xs => rfl
  | obj kvs =>
    cases kvs with
    | nil => exact absurd rfl h
    | cons a t => rfl

/-- No list-branch element is an empty mapping (elements are strings or
singleton mappings). -/
theorem cleanupRawElems_ne_emptyObj : ∀ (kvs : List (String × RawTree)) (e : JsonV),
    e ∈ cleanupRawElems kvs → e ≠ .obj []
  | [], e, he => absurd he (by simp [cleanupRawElems])
  | (k, v) :: t, e, he => by
    simp only [cleanupRawElems, List.mem_cons] at he
    rcases he with he | he
    · subst he
      split
      · simp
      · simp
    · exact cleanupRawElems_ne_emptyObj t e he

/-- The reclassification of a nonempty raw tree is never the empty
mapping. -/
theorem cleanupRaw_ne_emptyObj : ∀ (t : RawTree), t ≠ .node [] → cleanupRaw t ≠ .obj []
  | .node [], h => absurd rfl h
  | .node (kv :: rest), _ => by
    simp only [cleanupRaw]
    split
    · cases helems : cleanupRawElems (kv :: rest) with
      | nil =>
        have hl := cleanupRawElems_length (kv :: rest)
        rw [helems] at hl
        simp at hl
      | cons e es =>
        cases es with
        | nil =>
          dsimp only
          exact cleanupRawElems_ne_emptyObj _ e (by rw [helems]; simp)
        | cons e2 es2 =>
          dsimp only
          simp
    · intro hcontra
      have hmap : cleanupRawMap (kv :: rest) = [] := by
        injection hcontra
      have hl := cleanupRawMap_length (kv :: rest)
      rw [hmap] at hl
      simp at hl

/-- When no child is empty, no reclassified pair is an empty mapping. -/
theorem cleanupRawMap_no_empty : ∀ kvs : List (String × RawTree),
    (∀ kv ∈ kvs, kv.2 ≠ RawTree.node []) →
    ((cleanupRawMap kvs).any fun kv => isEmptyObj kv.2) = false
  | [], _ => rfl
  | (k, v) :: t, h => by
    simp only [cleanupRawMap, List.any_cons, Bool.or_eq_false_iff]
    exact ⟨isEmptyObj_false (cleanupRaw_ne_emptyObj v (h (k, v) (by simp))),
           cleanupRawMap_no_empty t (fun kv hkv => h kv (by simp [hkv]))⟩

/-- A raw tree is not the empty node iff `isEmptyNode` is false. -/
theorem isEmptyNode_false : ∀ {v : RawTree}, v.isEmptyNode = false ↔ v ≠ .node [] := by
  intro v
  cases v with
  | node kvs => cases kvs <;> simp [RawTree.isEmptyNode]

/-- Re-applying `_cleanup_empty_dict` to the reclassification of any
nonempty raw parser tree raises AttributeError: the output contains a
string, a list, or a mapping whose values fail recursively. -/
theorem cleanup_twice_none : (t : RawTree) → t ≠ RawTree.node [] →
    cleanup_empty_dict (cleanupRaw t) = none
  | .node [], h => absurd rfl h
  | .node ((k, v) :: rest), _ => by
    by_cases hEmp : ((k, v) :: rest).any (fun kv => kv.2.isEmptyNode)
    · rw [show cleanupRaw (.node ((k, v) :: rest)) =
          (match cleanupRawElems ((k, v) :: rest) with
            | [e] => e
            | es => .arr es) from by rw [cleanupRaw, if_pos hEmp]]
      cases rest with
      | nil =>
        have helems : cleanupRawElems [(k, v)] =
            [if v.isEmptyNode then JsonV.str k else JsonV.obj [(k, cleanupRaw v)]] := by
          simp [cleanupRawElems]
        rw [helems]
        dsimp only
        by_cases hv : v.isEmptyNode
        · rw [if_pos hv]
          rfl
        · rw [if_neg hv]
          have hvne : v ≠ .node [] := isEmptyNode_false.1 (by simpa using hv)
          have hobj : isEmptyObj (cleanupRaw v) = false :=
            isEmptyObj_false (cleanupRaw_ne_emptyObj v hvne)
          rw [show cleanup_empty_dict (JsonV.obj [(k, cleanupRaw v)]) =
              (match cleanupAnyMap [(k, cleanupRaw v)] with
                | none => none
                | some m => some (JsonV.obj m)) from by
            rw [cleanup_empty_dict, if_neg (by simp [hobj])]]
          rw [show cleanupAnyMap [(k, cleanupRaw v)] = none from by
            rw [cleanupAnyMap, cleanup_twice_none v hvne]]
      | cons r rs =>
        have helems : cleanupRawElems ((k, v) :: r :: rs) =
            (if v.isEmptyNode then JsonV.str k else JsonV.obj [(k, cleanupRaw v)]) ::
            (if r.2.isEmptyNode then JsonV.str r.1 else JsonV.obj [(r.1, cleanupRaw r.2)]) ::
            cleanupRawElems rs := by
          simp [cleanupRawElems]
        rw [helems]
        dsimp only
        rfl
    · have hall : ∀ kv ∈ (k, v) :: rest, kv.2 ≠ RawTree.node [] := by
        intro kv hkv
        apply isEmptyNode_false.1
        cases hx : kv.2.isEmptyNode with
        | false => rfl
        | true => exact absurd (List.any_eq_true.2 ⟨kv, hkv, hx⟩) hEmp
      have hvne : v ≠ .node [] := hall (k, v) (by simp)
      have hany : ((cleanupRawMap ((k, v) :: rest)).any fun kv => isEmptyObj kv.2) = false :=
        cleanupRawMap_no_empty _ hall
      rw [show cleanupRaw (.node ((k, v) :: rest)) =
          .obj (cleanupRawMap ((k, v) :: rest)) from by rw [cleanupRaw, if_neg hEmp]]
      rw [show cleanup_empty_dict (JsonV.obj (cleanupRawMap ((k, v) :: rest))) =
          (match cleanupAnyMap (cleanupRawMap ((k, v) :: rest)) with
            | none => none
            | some m => some (JsonV.obj m)) from by
        rw [cleanup_empty_dict, if_neg (by simp [hany])]]
      rw [show cleanupRawMap ((k, v) :: rest) = (k, cleanupRaw v) :: cleanupRawMap rest
          from by simp [cleanupRawMap]]
      rw [show cleanupAnyMap ((k, cleanupRaw v) :: cleanupRawMap rest) = none from by
        rw [cleanupAnyMap, cleanup_twice_none v hvne]]

/-- Claim C7 (amended): the list/mapping reclassification pass is **not**
idempotent on the structural tree parser's trees: for every nonempty raw
tree, applying `_cleanup_empty_dict` to the already-reclassified result
raises AttributeError instead of returning it unchanged; the empty mapping
is the only tree on which the second application returns the first
result. -/
theorem c7_idempotence_amended :
    (∀ t : RawTree, t ≠ .node [] → cleanup_empty_dict (cleanupRaw t) = none) ∧
    cleanup_empty_dict (cleanupRaw (.node [])) = some (cleanupRaw (.node [])) :=
  ⟨cleanup_twice_none, rfl⟩

/-- Claim C7 (witness): the amended theorem applied at the one-child raw
tree the parser builds for a body consisting of a single key. -/
theorem c7_idempotence_witness :
    (RawTree.node [("a", RawTree.node [])] ≠ RawTree.node []) ∧
    cleanup_empty_dict (cleanupRaw (RawTree.node [("a", RawTree.node [])])) = none :=
  ⟨by simp, c7_idempotence_amended.1 (RawTree.node [("a", RawTree.node [])]) (by simp)⟩

/-! ### Claim C8 — metadata pair splitting -/

/-- Claim C8 (counterexample): a metadata segment `a = b=c` whose value
contains a further `=` is **not** inserted as `("a", "b=c")`:
`parse_value_pair_lines` splits on every `=`, reports the 3-piece segment
as invalid and skips it, leaving the root dict empty. -/
theorem c8_metadata_split_counterexample :
    parse_value_pair_lines ["a = b=c"] 0 [] = (1, []) ∧
    ([] : Assoc) ≠ [("a", JsonV.str "b=c")] :=
  ⟨rfl, by simp⟩

/-- A single-character split never produces the empty list. -/
theorem splitCharL_ne_nil (c : Char) : ∀ l : List Char, splitCharL c l ≠ []
  | [] => by simp [splitCharL]
  | x :: t => by
    simp only [splitCharL]
    cases h : splitCharL c t with
    | nil => simp
    | cons hh r =>
      dsimp only
      split <;> simp

/-- Splitting at a separator whose left part is separator-free yields the
left part as the first piece. -/
theorem splitCharL_sep : (c : Char) → (k v : List Char) → c ∉ k →
    splitCharL c (k ++ c :: v) = k :: splitCharL c v
  | c, [], v, _ => by
    simp only [List.nil_append, splitCharL]
    cases h : splitCharL c v with
    | nil => exact absurd h (splitCharL_ne_nil c v)
    | cons hh r =>
      dsimp only
      simp
  | c, x :: k', v, hk => by
    have hx : ¬ x = c := fun e => hk (by rw [← e]; exact List.mem_cons_self x k')
    have ih := splitCharL_sep c k' v (fun hm => hk (List.mem_cons_of_mem _ hm))
    simp only [List.cons_append, splitCharL]
    rw [show splitCharL c (List.append k' (c :: v)) = k' :: splitCharL c v from ih]
    dsimp only
    rw [if_neg hx]

/-- A separator-free list splits into itself alone. -/
theorem splitCharL_no_sep : (c : Char) → (l : List Char) → c ∉ l →
    splitCharL c l = [l]
  | _, [], _ => rfl
  | c, x :: t, h => by
    have hx : ¬ x = c := fun e => h (by rw [← e]; exact List.mem_cons_self x t)
    simp only [splitCharL]
    rw [splitCharL_no_sep c t (fun hm => h (List.mem_cons_of_mem _ hm))]
    dsimp only
    rw [if_neg hx]

/-- A list containing the separator splits into at least two pieces. -/
theorem splitCharL_len_two : (c : Char) → (v : List Char) → c ∈ v →
    2 ≤ (splitCharL c v).length
  | c, [], hm => absurd hm (List.not_mem_nil c)
  | c, x :: t, hm => by
    simp only [splitCharL]
    cases h : splitCharL c t with
    | nil => exact absurd h (splitCharL_ne_nil c t)
    | cons hh r =>
      dsimp only
      by_cases hx : x = c
      · rw [if_pos hx]
        simp
      · rw [if_neg hx]
        have hmt : c ∈ t := by
          rcases List.mem_cons.1 hm with he | ht
          · exact absurd he.symm hx
          · exact ht
        have h2 := splitCharL_len_two c t hmt
        rw [h] at h2
        simpa using h2

/-- A segment whose value contains a further `=` yields more than two
pieces and is skipped by the metadata scan. -/
theorem vplPart_invalid (r : Assoc) (k v : List Char)
    (hk : '=' ∉ k) (hv : '=' ∈ v) : vplPart r (k ++ '=' :: v) = r := by
  unfold vplPart
  rw [splitCharL_sep '=' k v hk]
  have h2 := splitCharL_len_two '=' v hv
  rw [if_pos (show (k :: splitCharL '=' v).length ≠ 2 from by simp; omega)]

/-- A well-formed `key = value` segment (one `=` in total) is inserted as
the (trimmed key, trimmed value) pair. -/
theorem vplPart_valid (r : Assoc) (k v : List Char)
    (hk : '=' ∉ k) (hv : '=' ∉ v) :
    vplPart r (k ++ '=' :: v) =
      pyInsert r (String.mk (stripL k)) (.str (String.mk (stripL v))) := by
  unfold vplPart
  rw [splitCharL_sep '=' k v hk, splitCharL_no_sep '=' v hv]
  rw [if_neg (show ¬([k, v].length ≠ 2) from by simp)]
  rfl

/-- A comma segment of the amended C8 claim, carrying its key and value
character lists: `Sum.inl` is an invalid segment (value contains a further
`=`), `Sum.inr` a well-formed one. The segment's text is
`key ++ "=" ++ value` in both cases. -/
def c8Embed : (List Char × List Char) ⊕ (List Char × List Char) → List Char
  | .inl kv => kv.1 ++ '=' :: kv.2
  | .inr kv => kv.1 ++ '=' :: kv.2

/-- The per-segment effect the amended C8 claim describes: an invalid
segment is skipped, a well-formed one inserts the trimmed pair. -/
def c8Step (r : Assoc) : (List Char × List Char) ⊕ (List Char × List Char) → Assoc
  | .inl _ => r
  | .inr kv => pyInsert r (String.mk (stripL kv.1)) (.str (String.mk (stripL kv.2)))

/-- Folding the scan's segment step over the embedded segments equals
folding the claim's skip/insert effect over their classifications. -/
theorem c8Fold_eq : ∀ (segs : List ((List Char × List Char) ⊕ (List Char × List Char)))
    (root : Assoc),
    (∀ kv, Sum.inl kv ∈ segs → '=' ∉ kv.1 ∧ '=' ∈ kv.2) →
    (∀ kv, Sum.inr kv ∈ segs → '=' ∉ kv.1 ∧ '=' ∉ kv.2) →
    (segs.map c8Embed).foldl vplPart root = segs.foldl c8Step root
  | [], _, _, _ => rfl
  | s :: t, root, hbad, hgood => by
    simp only [List.map_cons, List.foldl_cons]
    cases s with
    | inl kv =>
      obtain ⟨hk, hv⟩ := hbad kv (by simp)
      rw [show c8Embed (Sum.inl kv) = kv.1 ++ '=' :: kv.2 from rfl,
        vplPart_invalid root kv.1 kv.2 hk hv]
      exact c8Fold_eq t root (fun kv h => hbad kv (by simp [h]))
        (fun kv h => hgood kv (by simp [h]))
    | inr kv =>
      obtain ⟨hk, hv⟩ := hgood kv (by simp)
      rw [show c8Embed (Sum.inr kv) = kv.1 ++ '=' :: kv.2 from rfl,
        vplPart_valid root kv.1 kv.2 hk hv]
      exact c8Fold_eq t _ (fun kv h => hbad kv (by simp [h]))
        (fun kv h => hgood kv (by simp [h]))

/-- Claim C8 (amended): for **every** consumed line (non-blank, containing
`=`, free of the block-boundary marker), every tail, every starting root
and every decomposition of the stripped line into comma segments — each an
invalid `key = value-containing-a-further-=` segment or a well-formed
`key = value` segment — the metadata scan consumes the line, skips every
invalid segment (nothing is inserted for it) and inserts every well-formed
segment as its (trimmed key, trimmed value) pair, in order, before
continuing with the remaining lines. -/
theorem c8_metadata_split_amended
    (root root' : Assoc) (line : String) (tail : List String)
    (segs : List ((List Char × List Char) ⊕ (List Char × List Char)))
    (hsegs : splitCharL ',' (pyStrip line).data = segs.map c8Embed)
    (hbad : ∀ kv, Sum.inl kv ∈ segs → '=' ∉ kv.1 ∧ '=' ∈ kv.2)
    (hgood : ∀ kv, Sum.inr kv ∈ segs → '=' ∉ kv.1 ∧ '=' ∉ kv.2)
    (hne : pyStrip line ≠ "")
    (hin : pyIn "=" (pyStrip line) = true)
    (hout : pyIn "====" (pyStrip line) = false)
    (hroot' : segs.foldl c8Step root = root') :
    parse_value_pair_lines (line :: tail) 0 root =
      ((parse_value_pair_lines tail 0 root').1 + 1,
       (parse_value_pair_lines tail 0 root').2) := by
  unfold parse_value_pair_lines
  simp only [List.drop_zero]
  simp only [vplLoop]
  rw [if_neg hne]
  rw [if_neg (show ¬((!pyIn "=" (pyStrip line) || pyIn "====" (pyStrip line)) = true)
    from by rw [hin, hout]; simp)]
  rw [hsegs, c8Fold_eq segs root hbad hgood, hroot']

/-- Claim C8 (witness): the amended theorem applied at the line
`a = b=c, d = 7`, whose first segment is invalid (value `b=c` contains a
further `=`) and whose second is well-formed: only `("d", "7")` is
inserted. -/
theorem c8_metadata_split_witness :
    parse_value_pair_lines ["a = b=c, d = 7"] 0 [] = (1, [("d", JsonV.str "7")]) := by
  have h := c8_metadata_split_amended [] [("d", JsonV.str "7")] "a = b=c, d = 7" []
    [Sum.inl ("a ".data, " b=c".data), Sum.inr (" d ".data, " 7".data)]
    rfl
    (by intro kv hkv; simp at hkv; subst hkv; decide)
    (by intro kv hkv; simp at hkv; subst hkv; decide)
    (by decide) (by decide) (by decide) rfl
  simpa using h

/-! ### Claim C9 — releasing untracked secondary cells -/

/-- `rel_scg`'s element loop on a list of integer strings none of which is
tracked: every index is appended to the removed list and the secondary-cell
dict is returned unchanged. -/
theorem relScgLoop_untracked (elems : List (String × Int)) (sc : List (Int × Cell))
    (hparse : ∀ q ∈ elems, pyIntStr q.1 = some q.2)
    (huntracked : ∀ q ∈ elems, pyLookup sc q.2 = (none : Option Cell)) :
    relScgLoop (elems.map (fun q => JsonV.str q.1)) sc =
      some (elems.map Prod.snd, sc) := by
  induction elems with
  | nil => rfl
  | cons q t ih =>
    obtain ⟨x, n⟩ := q
    have h1 : pyIntStr x = some n := hparse (x, n) (by simp)
    have h2 : pyLookup sc n = (none : Option Cell) := huntracked (x, n) (by simp)
    simp only [List.map_cons, relScgLoop, pyIntOfJson, h1, h2, Option.isSome_none,
      Bool.false_eq_true, if_false]
    rw [ih (fun q hq => hparse q (by simp [hq])) (fun q hq => huntracked q (by simp [hq]))]

/-- Claim C9: for every reconfiguration entry whose body contains only a
secondary-cell-release-list referencing indices not currently tracked,
`add_rrc` does not raise, leaves the secondary-cell mapping (and the
primary cell) unchanged, and still opens a new HandoverEvent carrying every
referenced index in `removed_cells` (force-closing a dangling open event
first). -/
theorem c9_untracked_release (s : UESTAT) (e : Entry) (d : Assoc) (pdu : JsonV)
    (p : List PathElem) (elems : List (String × Int))
    (hd : e.data = some d)
    (hpdu : pyLookup d "Interpreted PDU" = some pdu)
    (hname : e.log_name = some reconfName)
    (hmcg : json_find "mobilityControlInfo" pdu [] = [])
    (hrel : json_find "sCellToReleaseList" pdu [] = [p])
    (hget : json_get pdu p = some (.arr (elems.map (fun q => JsonV.str q.1))))
    (hparse : ∀ q ∈ elems, pyIntStr q.1 = some q.2)
    (huntracked : ∀ q ∈ elems, pyLookup s.sCells q.2 = (none : Option Cell))
    (hadd : json_find "sCellToAddModList" pdu [] = [])
    (hne : elems ≠ []) :
    add_rrc e s = some { s with ho_events := closeLastIfOpen s.ho_events e.ts_ms ++
      [{ evBegin := e.ts_ms, hoType := "intraSCG", evEnd := none,
         added_cells := [], removed_cells := elems.map (fun q => some q.2) }] } := by
  have hne' : e.log_name ≠ some completeName := by
    rw [hname]; decide
  have hrelloop : relPathsLoop pdu [p] s.sCells =
      some (elems.map Prod.snd, s.sCells) := by
    simp only [relPathsLoop, hget, rel_scg, pyIter]
    rw [relScgLoop_untracked elems s.sCells hparse huntracked]
    simp
  have hremne : (elems.map Prod.snd).map some ≠ ([] : List (Option Int)) := by
    simpa using hne
  unfold add_rrc
  rw [hd]
  dsimp only
  rw [hpdu]
  dsimp only
  unfold addRrcMain
  dsimp only
  rw [if_neg hne', hmcg]
  dsimp only
  unfold addRrcRest
  rw [hrel, hrelloop, hadd]
  simp only [addPathsLoop]
  rw [if_neg (fun hc => hremne (by simpa using hc.2))]
  simp [List.map_map, Function.comp]

/-- A reconfiguration entry whose body only releases the untracked
secondary-cell indices 1 and 2. -/
def c9Entry : Entry :=
  { date := "2025 Dec 17", time := "20:34:04.165", ts_ms := 777, unknown := "EC",
    log_code := "0xB0C0", log_type := some "LTE RRC OTA Packet",
    log_name := some reconfName,
    data := some [("Interpreted PDU",
      .obj [("sCellToReleaseList-r10", .arr [.str "1", .str "2"])])] }

/-- Claim C9 (witness): the theorem applied at the concrete release-only
entry on a fresh state. -/
theorem c9_untracked_release_witness :
    add_rrc c9Entry uestatInit = some { uestatInit with ho_events :=
      [{ evBegin := 777, hoType := "intraSCG", evEnd := none,
         added_cells := [], removed_cells := [some 1, some 2] }] } := by
  have h := c9_untracked_release uestatInit c9Entry
    [("Interpreted PDU", .obj [("sCellToReleaseList-r10", .arr [.str "1", .str "2"])])]
    (.obj [("sCellToReleaseList-r10", .arr [.str "1", .str "2"])])
    [PathElem.key "sCellToReleaseList-r10"] [("1", 1), ("2", 2)]
    rfl rfl rfl rfl rfl rfl (by decide) (by decide) rfl (by decide)
  simpa using h

/-! ### Claim C10 — cursor bounds of the structural tree parser -/

/-- Claim C10 (counterexample): at `begin = len(lines)` (an index the
claim admits), `parse_nested_pdu` raises UnboundLocalError — the
invalid-root report reads `line` before any loop iteration bound it — so
it does not return a consumed-line count at all. -/
theorem c10_cursor_counterexample :
    parse_nested_pdu [] 0 [] = none := rfl

/-- The root loop consumes at most all remaining lines. -/
theorem rootLoop_le (l : List String) : (rootLoop l).1 ≤ l.length := by
  induction l with
  | nil => simp [rootLoop]
  | cons x rest ih =>
    simp only [rootLoop]
    split
    · simpa using ih
    · simp

/-- On a non-empty remainder the root loop consumes at least one line. -/
theorem rootLoop_pos (x : String) (rest : List String) :
    1 ≤ (rootLoop (x :: rest)).1 := by
  simp only [rootLoop]
  split
  · simp
  · simp

/-- The tree-building loop consumes at most all remaining lines. -/
theorem mainLoop_le (l : List String) : ∀ (st : PStack) (b : RawTree),
    (mainLoop l st b).1 ≤ l.length := by
  induction l with
  | nil => intro st b; simp [mainLoop]
  | cons x rest ih =>
    intro st b
    simp only [mainLoop]
    split
    · simpa using ih st b
    · split
      · simp
      · simp only [List.length_cons]
        exact Nat.succ_le_succ (ih _ _)

/-- Claim C10 (amended): for every begin index **strictly below**
`len(lines)`, `parse_nested_pdu` returns a consumed-line count `r` with
`0 ≤ r` and `begin + r ≤ len(lines)` — including when the root line fails
the two-token grammar — so the Block Router's cursor never moves backwards
and never past the end of the entry body; only at `begin = len(lines)`
does the function raise instead of returning. -/
theorem c10_cursor_amended (lines : List String) (bg : Nat) (root : Assoc)
    (h : bg < lines.length) :
    ∃ r root', parse_nested_pdu lines bg root = some (r, root') ∧
      0 ≤ r ∧ (bg : Int) + r ≤ (lines.length : Int) := by
  rcases hrl : rootLoop (lines.drop bg) with ⟨c, values, level⟩
  have hc_le : c ≤ lines.length - bg := by
    have := rootLoop_le (lines.drop bg)
    rw [hrl] at this
    simpa using this
  have hc_pos : 1 ≤ c := by
    rcases hne : lines.drop bg with _ | ⟨x, rest⟩
    · have : lines.length - bg = 0 := by
        have := congrArg List.length hne
        simpa using this
      omega
    · have := rootLoop_pos x rest
      rw [← hne, hrl] at this
      exact this
  unfold parse_nested_pdu
  dsimp only
  rw [hrl]
  dsimp only
  by_cases h2 : values.length = 2
  · rw [if_pos h2]
    rcases hml : mainLoop ((lines.drop bg).drop c) [(level, ([] : List String))] (.node [])
      with ⟨c2, body⟩
    have hc2_le : c2 ≤ lines.length - bg - c := by
      have := mainLoop_le ((lines.drop bg).drop c) [(level, ([] : List String))] (.node [])
      rw [hml] at this
      simpa [Nat.sub_sub] using this
    refine ⟨_, _, rfl, by positivity, ?_⟩
    push_cast
    omega
  · rw [if_neg h2, if_neg (by omega)]
    refine ⟨_, _, rfl, by omega, ?_⟩
    omega

/-- Claim C10 (witness): the amended theorem applied at a one-line body
whose root line fails the two-token grammar. -/
theorem c10_cursor_witness :
    0 < ([("a" : String)]).length ∧
    ∃ r root', parse_nested_pdu ["a"] 0 [] = some (r, root') ∧
      0 ≤ r ∧ ((0 : Nat) : Int) + r ≤ (([("a" : String)]).length : Int) :=
  ⟨by decide, c10_cursor_amended ["a"] 0 [] (by decide)⟩

end DashMeas
